import Mathlib

/-!
Shallow embedding of the three rate-limiting algorithms of the repository
(`src/rate_limiter/fixed_window_counter.py`, `token_bucket.py`,
`leaking_bucket.py`) and proofs of the spec's claims about them.

Numbers (Python ints and floats, clock readings) are modelled as rationals;
Python `int(...)` truncation toward zero is `pyInt`; a Python statement that
raises (`ZeroDivisionError` on division by zero) is modelled by `Option`
(`none` = the call raises).  Each limiter is a structure mirroring the
Python object's attributes; its decision method is a state-passing function
taking the clock reading `now` as an explicit argument (the Python code
reads `time.time()` / `time.monotonic()` inside the method).
-/

namespace RateLimiter

/-- Python `int(q)`: truncation toward zero. -/
def pyInt (q : ℚ) : ℤ :=
  if 0 ≤ q then ⌊q⌋ else ⌈q⌉

/-! ## FixedWindowCounter (`fixed_window_counter.py`) -/

structure FixedWindowCounter where
  window_size : ℚ
  request_threshold : ℤ
  current_window_start : ℚ
  request_count : ℤ
  deriving DecidableEq, Repr

/-- `FixedWindowCounter._get_current_window`:
`int(time.time() // self.window_size) * self.window_size`.
Python `//` on numbers is floor division, so the result is
`⌊now / window_size⌋ * window_size`. -/
def getCurrentWindow (window_size : ℚ) (now : ℚ) : ℚ :=
  (⌊now / window_size⌋ : ℚ) * window_size

/-- `FixedWindowCounter.__init__`; it calls `_get_current_window`, which
divides by `window_size`, so construction with `window_size = 0` raises
`ZeroDivisionError` (modelled by `none`).  No other validation is done. -/
def FixedWindowCounter.init (window_size : ℚ) (request_threshold : ℤ)
    (now : ℚ) : Option FixedWindowCounter :=
  if window_size = 0 then none
  else some ⟨window_size, request_threshold, getCurrentWindow window_size now, 0⟩

/-- The body of `FixedWindowCounter.allow_request` (defined whenever
`window_size ≠ 0`): recompute the window start, reset the counter on a
rollover, then admit iff `request_count < request_threshold`, incrementing
on admission. -/
def allowRun (s : FixedWindowCounter) (now : ℚ) : Bool × FixedWindowCounter :=
  let ws := getCurrentWindow s.window_size now
  let s1 := if ws ≠ s.current_window_start
    then { s with current_window_start := ws, request_count := 0 }
    else s
  if s1.request_count < s1.request_threshold
  then (true, { s1 with request_count := s1.request_count + 1 })
  else (false, s1)

/-- `FixedWindowCounter.allow_request`; with `window_size = 0` the call to
`_get_current_window` raises (`none`). -/
def FixedWindowCounter.allow_request (s : FixedWindowCounter) (now : ℚ) :
    Option (Bool × FixedWindowCounter) :=
  if s.window_size = 0 then none else some (allowRun s now)

/-- Number of admitted (True) results over a sequence of `allow_request`
calls at the given clock readings. -/
def runCount (s : FixedWindowCounter) : List ℚ → ℕ
  | [] => 0
  | t :: rest =>
    let r := allowRun s t
    (if r.1 then 1 else 0) + runCount r.2 rest

/-! ## TokenBucket (`token_bucket.py`) -/

structure TokenBucket where
  bucket_size : ℚ
  refill_rate : ℚ
  tokens : ℚ
  last_refill_time : ℚ
  deriving DecidableEq, Repr

/-- `TokenBucket.__init__`: stores the parameters unvalidated; the bucket
starts full (`tokens = bucket_size`). -/
def TokenBucket.init (bucket_size refill_rate : ℚ) (now : ℚ) : TokenBucket :=
  ⟨bucket_size, refill_rate, bucket_size, now⟩

/-- `TokenBucket._refill`: add `elapsed * refill_rate` tokens, clamped at
`bucket_size`, and advance `last_refill_time` to `now`. -/
def TokenBucket.refill (s : TokenBucket) (now : ℚ) : TokenBucket :=
  let elapsed := now - s.last_refill_time
  let newTokens := elapsed * s.refill_rate
  { s with tokens := min s.bucket_size (s.tokens + newTokens),
           last_refill_time := now }

/-- `TokenBucket.allow_request(tokens=1)`: refill, then admit iff the level
covers the requested `tokens`, consuming them on admission.  No validation
of the argument is performed. -/
def TokenBucket.allow_request (s : TokenBucket) (now : ℚ) (tokens : ℚ) :
    Bool × TokenBucket :=
  let s1 := s.refill now
  if s1.tokens ≥ tokens
  then (true, { s1 with tokens := s1.tokens - tokens })
  else (false, s1)

/-- Run a sequence of `allow_request` calls, each a pair
`(clock reading, requested tokens)`. -/
def TokenBucket.runCalls (s : TokenBucket) : List (ℚ × ℚ) → TokenBucket
  | [] => s
  | (t, c) :: rest => TokenBucket.runCalls (s.allow_request t c).2 rest

/-- Well-formed call sequence for a bucket whose `last_refill_time` is `t0`:
clock readings non-decreasing starting at or after `t0`, each requested
cost at least 1. -/
def validCalls (t0 : ℚ) : List (ℚ × ℚ) → Prop
  | [] => True
  | (t, c) :: rest => t0 ≤ t ∧ 1 ≤ c ∧ validCalls t rest

instance : ∀ (t0 : ℚ) (l : List (ℚ × ℚ)), Decidable (validCalls t0 l)
  | _, [] => .isTrue trivial
  | t0, (t, c) :: rest =>
    have : Decidable (validCalls t rest) := instDecidableValidCalls t rest
    inferInstanceAs (Decidable (t0 ≤ t ∧ 1 ≤ c ∧ validCalls t rest))

/-! ## LeakingBucket (`leaking_bucket.py`) -/

structure LeakingBucket where
  bucket_size : ℤ
  outflow_rate : ℚ
  queue : List ℚ
  last_processed_time : ℚ
  deriving DecidableEq, Repr

/-- `LeakingBucket.__init__`: stores the parameters unvalidated, with an
empty queue. -/
def LeakingBucket.init (bucket_size : ℤ) (outflow_rate : ℚ) (now : ℚ) :
    LeakingBucket :=
  ⟨bucket_size, outflow_rate, [], now⟩

/-- The body of `LeakingBucket._process_queue` (defined whenever
`outflow_rate ≠ 0`): `n = int(elapsed * outflow_rate)`; pop up to `n` items
(the drop stops early if the queue empties — the Python loop breaks);
then `last_processed_time += n / outflow_rate` with the full computed `n`,
whether or not `n` items were actually popped. -/
def processQueueRun (s : LeakingBucket) (now : ℚ) : LeakingBucket :=
  let elapsed := now - s.last_processed_time
  let n := pyInt (elapsed * s.outflow_rate)
  { s with queue := s.queue.drop n.toNat,
           last_processed_time :=
             s.last_processed_time + (n : ℚ) / s.outflow_rate }

/-- `LeakingBucket._process_queue`; with `outflow_rate = 0` the statement
`last_processed_time += request_to_process / outflow_rate` raises
`ZeroDivisionError` (modelled by `none`). -/
def LeakingBucket.process_queue (s : LeakingBucket) (now : ℚ) :
    Option LeakingBucket :=
  if s.outflow_rate = 0 then none else some (processQueueRun s now)

/-- `LeakingBucket.add_request`: drain first, then admit iff the queue has a
free slot, appending the current timestamp on admission. -/
def LeakingBucket.add_request (s : LeakingBucket) (now : ℚ) :
    Option (Bool × LeakingBucket) :=
  (s.process_queue now).map (fun s1 =>
    if (s1.queue.length : ℤ) < s1.bucket_size
    then (true, { s1 with queue := s1.queue ++ [now] })
    else (false, s1))

/-! ## Claim theorems -/

/-- Single-step preservation of the token-level bounds: one `allow_request`
call, at a clock reading at or after `last_refill_time` and with a cost of
at least 1, keeps `0 ≤ tokens ≤ bucket_size`. -/
theorem allow_request_tokens_bounds (s : TokenBucket) (now cost : ℚ)
    (hr : 0 ≤ s.refill_rate) (h0 : 0 ≤ s.tokens) (hc : s.tokens ≤ s.bucket_size)
    (hnow : s.last_refill_time ≤ now) (hcost : 1 ≤ cost) :
    0 ≤ (s.allow_request now cost).2.tokens ∧
      (s.allow_request now cost).2.tokens ≤ s.bucket_size := by
  have hcap : (0 : ℚ) ≤ s.bucket_size := le_trans h0 hc
  have helapsed : 0 ≤ (now - s.last_refill_time) * s.refill_rate :=
    mul_nonneg (by linarith) hr
  have href0 : 0 ≤ (s.refill now).tokens := by
    simp only [TokenBucket.refill, le_min_iff]
    constructor <;> linarith
  have hrefc : (s.refill now).tokens ≤ s.bucket_size := by
    simp only [TokenBucket.refill]
    exact min_le_left _ _
  unfold TokenBucket.allow_request
  by_cases hadm : (s.refill now).tokens ≥ cost
  · simp only [hadm, if_pos]
    exact ⟨by linarith, by linarith⟩
  · simp only [hadm, if_neg, not_false_iff]
    exact ⟨href0, hrefc⟩

/-- `allow_request` does not change `bucket_size` or `refill_rate`. -/
theorem allow_request_params (s : TokenBucket) (now cost : ℚ) :
    (s.allow_request now cost).2.bucket_size = s.bucket_size ∧
      (s.allow_request now cost).2.refill_rate = s.refill_rate ∧
      (s.allow_request now cost).2.last_refill_time = now := by
  refine ⟨?_, ?_, ?_⟩ <;>
  · simp only [TokenBucket.allow_request, TokenBucket.refill]
    split <;> rfl

/-- C2: for every `TokenBucket` with `refill_rate ≥ 0`, starting from a state
with `0 ≤ tokens ≤ bucket_size` (as after construction, where the bucket
starts full), after every well-formed sequence of `allow_request` calls —
clock readings non-decreasing (arbitrarily large advances allowed), each
cost ≥ 1 — the token level satisfies `0 ≤ tokens ≤ bucket_size`: tokens
never exceed capacity and are never negative after a decision.  Since every
prefix of a well-formed sequence is well-formed, this gives the bound after
every individual call. -/
theorem C2_token_bucket_invariant (s : TokenBucket) (calls : List (ℚ × ℚ))
    (hr : 0 ≤ s.refill_rate) (h0 : 0 ≤ s.tokens) (hc : s.tokens ≤ s.bucket_size)
    (hcalls : validCalls s.last_refill_time calls) :
    0 ≤ (s.runCalls calls).tokens ∧
      (s.runCalls calls).tokens ≤ s.bucket_size := by
  induction calls generalizing s with
  | nil => exact ⟨h0, hc⟩
  | cons hd rest ih =>
    obtain ⟨t, c⟩ := hd
    obtain ⟨hts, hcs, hrest⟩ := hcalls
    have hstep := allow_request_tokens_bounds s t c hr h0 hc hts hcs
    have hparams := allow_request_params s t c
    have := ih (s.allow_request t c).2
      (by rw [hparams.2.1]; exact hr)
      hstep.1
      (by rw [hparams.1]; exact hstep.2)
      (by rw [hparams.2.2]; exact hrest)
    rw [TokenBucket.runCalls]
    exact ⟨this.1, by rw [← hparams.1]; exact this.2⟩

/-- C2 witness: the invariant theorem applied to a concrete bucket of
capacity 3, refill rate 2, and a concrete three-call sequence. -/
theorem C2_token_bucket_invariant_witness :
    0 ≤ ((TokenBucket.init 3 2 0).runCalls [(0, 1), (1, 2), (5, 1)]).tokens ∧
      ((TokenBucket.init 3 2 0).runCalls [(0, 1), (1, 2), (5, 1)]).tokens ≤
        (TokenBucket.init 3 2 0).bucket_size :=
  C2_token_bucket_invariant (TokenBucket.init 3 2 0) [(0, 1), (1, 2), (5, 1)]
    (by norm_num [TokenBucket.init])
    (by norm_num [TokenBucket.init])
    (by norm_num [TokenBucket.init])
    (by norm_num [TokenBucket.init, validCalls])

/-- With a non-negative elapsed-times-rate product (the case under a
monotonic clock), `_process_queue` drops `⌊elapsed * outflow_rate⌋` items
and advances `last_processed_time` by that many drain intervals. -/
theorem processQueueRun_eq (s : LeakingBucket) (now : ℚ)
    (h : 0 ≤ (now - s.last_processed_time) * s.outflow_rate) :
    processQueueRun s now =
      ⟨s.bucket_size, s.outflow_rate,
        s.queue.drop (⌊(now - s.last_processed_time) * s.outflow_rate⌋).toNat,
        s.last_processed_time +
          ((⌊(now - s.last_processed_time) * s.outflow_rate⌋ : ℤ) : ℚ) /
            s.outflow_rate⟩ := by
  rw [processQueueRun, pyInt, if_pos h]

/-- A clock reading in the half-open window `[k*W, k*W + W)` has window
index `k`. -/
theorem window_mem_floor (W t : ℚ) (k : ℤ) (hW : 0 < W)
    (h1 : (k : ℚ) * W ≤ t) (h2 : t < (k : ℚ) * W + W) : ⌊t / W⌋ = k := by
  rw [Int.floor_eq_iff]
  constructor
  · rw [le_div_iff₀ hW]
    exact h1
  · rw [div_lt_iff₀ hW]
    linarith


/-- `allow_request` body when the reading stays in the current window: no
rollover, admit iff the counter is below the threshold. -/
theorem allowRun_same_window (s : FixedWindowCounter) (now : ℚ)
    (hws : getCurrentWindow s.window_size now = s.current_window_start) :
    allowRun s now =
      if s.request_count < s.request_threshold
      then (true, { s with request_count := s.request_count + 1 })
      else (false, s) := by
  simp only [allowRun, hws, ne_eq, not_true_eq_false, ite_false]

/-- `allow_request` body on a window rollover: the counter resets to 0
before the admit test, so the call is admitted iff the threshold is
positive. -/
theorem allowRun_rollover (s : FixedWindowCounter) (now : ℚ)
    (hws : getCurrentWindow s.window_size now ≠ s.current_window_start) :
    allowRun s now =
      if 0 < s.request_threshold
      then (true, { s with
        current_window_start := getCurrentWindow s.window_size now,
        request_count := 1 })
      else (false, { s with
        current_window_start := getCurrentWindow s.window_size now,
        request_count := 0 }) := by
  simp only [allowRun, ne_eq, hws, not_false_eq_true, ite_true]
  norm_num

theorem runCount_cons (s : FixedWindowCounter) (t : ℚ) (rest : List ℚ) :
    runCount s (t :: rest) =
      (if (allowRun s t).1 then 1 else 0) + runCount (allowRun s t).2 rest := rfl

theorem runCount_cons_of_true (s s2 : FixedWindowCounter) (t : ℚ)
    (rest : List ℚ) (h : allowRun s t = (true, s2)) :
    runCount s (t :: rest) = 1 + runCount s2 rest := by
  rw [runCount_cons, h]
  rfl

theorem runCount_cons_of_false (s s2 : FixedWindowCounter) (t : ℚ)
    (rest : List ℚ) (h : allowRun s t = (false, s2)) :
    runCount s (t :: rest) = runCount s2 rest := by
  rw [runCount_cons, h]
  show 0 + runCount s2 rest = runCount s2 rest
  exact Nat.zero_add _

/-- Over calls that all stay in the state's current window, the number of
admissions is bounded by the remaining capacity of the window. -/
theorem runCount_same_window (k : ℤ) (ts : List ℚ) :
    ∀ s : FixedWindowCounter,
      s.current_window_start = (k : ℚ) * s.window_size →
      (∀ t ∈ ts, ⌊t / s.window_size⌋ = k) →
      runCount s ts ≤ (s.request_threshold - s.request_count).toNat := by
  induction ts with
  | nil =>
    intro s _ _
    exact Nat.zero_le _
  | cons t rest ih =>
    intro s hcws hfl
    have hws : getCurrentWindow s.window_size t = s.current_window_start := by
      rw [getCurrentWindow, hfl t (List.mem_cons_self t rest), hcws]
    have hrest := fun s2 h2 h3 => ih s2 h2 h3
    by_cases hlt : s.request_count < s.request_threshold
    · have hstep : allowRun s t =
          (true, { s with request_count := s.request_count + 1 }) := by
        rw [allowRun_same_window s t hws, if_pos hlt]
      rw [runCount_cons_of_true _ _ _ _ hstep]
      have h2 := hrest { s with request_count := s.request_count + 1 } hcws
        (fun u hu => hfl u (List.mem_cons_of_mem t hu))
      dsimp only at h2
      omega
    · have hstep : allowRun s t = (false, s) := by
        rw [allowRun_same_window s t hws, if_neg hlt]
      rw [runCount_cons_of_false _ _ _ _ hstep]
      exact hrest s hcws (fun u hu => hfl u (List.mem_cons_of_mem t hu))

/-- Repeating the same reading inside the current window admits exactly
`min m (threshold - count)` of `m` calls. -/
theorem runCount_replicate (t : ℚ) :
    ∀ (m : ℕ) (s : FixedWindowCounter),
      getCurrentWindow s.window_size t = s.current_window_start →
      runCount s (List.replicate m t) =
        min m (s.request_threshold - s.request_count).toNat := by
  intro m
  induction m with
  | zero =>
    intro s _
    simp [runCount]
  | succ m ih =>
    intro s hws
    rw [List.replicate_succ]
    by_cases hlt : s.request_count < s.request_threshold
    · have hstep : allowRun s t =
          (true, { s with request_count := s.request_count + 1 }) := by
        rw [allowRun_same_window s t hws, if_pos hlt]
      rw [runCount_cons_of_true _ _ _ _ hstep]
      have h2 := ih { s with request_count := s.request_count + 1 } hws
      dsimp only at h2
      omega
    · have hstep : allowRun s t = (false, s) := by
        rw [allowRun_same_window s t hws, if_neg hlt]
      rw [runCount_cons_of_false _ _ _ _ hstep]
      have h2 := ih s hws
      omega

/-- C1: for a `FixedWindowCounter` with window size `W > 0`, threshold
`T ≥ 0` and a non-negative counter (as in every reachable state):
(1) every sequence of `allow_request` calls whose clock readings all fall
within one half-open window `[k*W, k*W + W)` admits at most `T` calls;
(2) `T+1` calls issued at the same instant in a fresh window (a window
differing from the state's current one, or a zero counter) admit exactly
`T` and reject the rest; (3) with threshold 0 every call returns `False`. -/
theorem C1_fixed_window (s : FixedWindowCounter)
    (hW : 0 < s.window_size) (hT : 0 ≤ s.request_threshold)
    (hc : 0 ≤ s.request_count) :
    (∀ (k : ℤ) (ts : List ℚ),
      (∀ t ∈ ts, (k : ℚ) * s.window_size ≤ t ∧
        t < (k : ℚ) * s.window_size + s.window_size) →
      runCount s ts ≤ s.request_threshold.toNat) ∧
    (∀ t : ℚ,
      getCurrentWindow s.window_size t ≠ s.current_window_start ∨
        s.request_count = 0 →
      runCount s (List.replicate (s.request_threshold.toNat + 1) t) =
        s.request_threshold.toNat) ∧
    (s.request_threshold = 0 → ∀ t : ℚ, (allowRun s t).1 = false) := by
  refine ⟨?_, ?_, ?_⟩
  · intro k ts hts
    have hfl : ∀ t ∈ ts, ⌊t / s.window_size⌋ = k := fun t ht =>
      window_mem_floor s.window_size t k hW (hts t ht).1 (hts t ht).2
    cases ts with
    | nil => exact Nat.zero_le _
    | cons t rest =>
      have hjt : ⌊t / s.window_size⌋ = k := hfl t (List.mem_cons_self t rest)
      by_cases hcws : s.current_window_start = (k : ℚ) * s.window_size
      · have h := runCount_same_window k (t :: rest) s hcws hfl
        omega
      · have hroll : getCurrentWindow s.window_size t ≠
            s.current_window_start := by
          rw [getCurrentWindow, hjt]
          exact fun hcontra => hcws hcontra.symm
        by_cases hpos : 0 < s.request_threshold
        · have hstep : allowRun s t = (true, { s with
              current_window_start := getCurrentWindow s.window_size t,
              request_count := 1 }) := by
            rw [allowRun_rollover s t hroll, if_pos hpos]
          rw [runCount_cons_of_true _ _ _ _ hstep]
          have h2 := runCount_same_window k rest
            { s with current_window_start := getCurrentWindow s.window_size t,
                     request_count := 1 }
            (by dsimp only; rw [getCurrentWindow, hjt])
            (fun u hu => hfl u (List.mem_cons_of_mem t hu))
          dsimp only at h2
          omega
        · have hstep : allowRun s t = (false, { s with
              current_window_start := getCurrentWindow s.window_size t,
              request_count := 0 }) := by
            rw [allowRun_rollover s t hroll, if_neg hpos]
          rw [runCount_cons_of_false _ _ _ _ hstep]
          have h2 := runCount_same_window k rest
            { s with current_window_start := getCurrentWindow s.window_size t,
                     request_count := 0 }
            (by dsimp only; rw [getCurrentWindow, hjt])
            (fun u hu => hfl u (List.mem_cons_of_mem t hu))
          dsimp only at h2
          omega
  · intro t hfresh
    by_cases hroll : getCurrentWindow s.window_size t ≠ s.current_window_start
    · rw [List.replicate_succ]
      by_cases hpos : 0 < s.request_threshold
      · have hstep : allowRun s t = (true, { s with
            current_window_start := getCurrentWindow s.window_size t,
            request_count := 1 }) := by
          rw [allowRun_rollover s t hroll, if_pos hpos]
        rw [runCount_cons_of_true _ _ _ _ hstep]
        have h2 := runCount_replicate t s.request_threshold.toNat
          { s with current_window_start := getCurrentWindow s.window_size t,
                   request_count := 1 } rfl
        dsimp only at h2
        omega
      · have hstep : allowRun s t = (false, { s with
            current_window_start := getCurrentWindow s.window_size t,
            request_count := 0 }) := by
          rw [allowRun_rollover s t hroll, if_neg hpos]
        rw [runCount_cons_of_false _ _ _ _ hstep]
        have h2 := runCount_replicate t s.request_threshold.toNat
          { s with current_window_start := getCurrentWindow s.window_size t,
                   request_count := 0 } rfl
        dsimp only at h2
        omega
    · have heq : getCurrentWindow s.window_size t = s.current_window_start :=
        not_ne_iff.mp hroll
      have hzero : s.request_count = 0 := by
        rcases hfresh with h | h
        · exact absurd heq h
        · exact h
      have h2 := runCount_replicate t (s.request_threshold.toNat + 1) s heq
      rw [h2, hzero]
      omega
  · intro hthr t
    by_cases hroll : getCurrentWindow s.window_size t ≠ s.current_window_start
    · rw [allowRun_rollover s t hroll, if_neg (by omega)]
    · rw [allowRun_same_window s t (not_ne_iff.mp hroll), if_neg (by omega)]

/-- C1 witness: the fixed-window theorem applied to a fresh counter with
window size 1 and threshold 2: three same-window calls admit at most 2, and
three calls at the same instant admit exactly 2. -/
theorem C1_fixed_window_witness :
    runCount ⟨1, 2, 0, 0⟩ [0, 0, 0] ≤ (2 : ℤ).toNat ∧
      runCount ⟨1, 2, 0, 0⟩ (List.replicate ((2 : ℤ).toNat + 1) 0) =
        (2 : ℤ).toNat :=
  ⟨(C1_fixed_window ⟨1, 2, 0, 0⟩ (by norm_num) (by norm_num)
      (by norm_num)).1 0 [0, 0, 0]
      (by intro u hu; fin_cases hu <;> norm_num),
   (C1_fixed_window ⟨1, 2, 0, 0⟩ (by norm_num) (by norm_num)
      (by norm_num)).2.1 0 (Or.inr rfl)⟩

set_option maxHeartbeats 1000000 in
/-- Composing two drains at increasing clock readings equals the single
drain at the later reading: the fractional drain time carried in
`last_processed_time` makes the drain step path-independent. -/
theorem processQueueRun_comp (s : LeakingBucket) (t1 t2 : ℚ)
    (hr : 0 < s.outflow_rate) (ht1 : s.last_processed_time ≤ t1) (h12 : t1 ≤ t2) :
    processQueueRun (processQueueRun s t1) t2 = processQueueRun s t2 := by
  have hrne : s.outflow_rate ≠ 0 := hr.ne'
  have h1 : 0 ≤ (t1 - s.last_processed_time) * s.outflow_rate :=
    mul_nonneg (by linarith) hr.le
  have h3 : 0 ≤ (t2 - s.last_processed_time) * s.outflow_rate :=
    mul_nonneg (by linarith) hr.le
  have hn1 : (0 : ℤ) ≤ ⌊(t1 - s.last_processed_time) * s.outflow_rate⌋ :=
    Int.le_floor.mpr (by exact_mod_cast h1)
  have hmono : (t1 - s.last_processed_time) * s.outflow_rate ≤
      (t2 - s.last_processed_time) * s.outflow_rate :=
    mul_le_mul_of_nonneg_right (by linarith) hr.le
  have hn1len : ⌊(t1 - s.last_processed_time) * s.outflow_rate⌋ ≤
      ⌊(t2 - s.last_processed_time) * s.outflow_rate⌋ := Int.floor_le_floor hmono
  have hfle : ((⌊(t1 - s.last_processed_time) * s.outflow_rate⌋ : ℤ) : ℚ) ≤
      (t1 - s.last_processed_time) * s.outflow_rate := Int.floor_le _
  have hdivle : ((⌊(t1 - s.last_processed_time) * s.outflow_rate⌋ : ℤ) : ℚ) /
      s.outflow_rate ≤ t1 - s.last_processed_time := by
    rw [div_le_iff₀ hr]; exact hfle
  have h2 : 0 ≤ (t2 - (s.last_processed_time +
      ((⌊(t1 - s.last_processed_time) * s.outflow_rate⌋ : ℤ) : ℚ) /
        s.outflow_rate)) * s.outflow_rate := mul_nonneg (by linarith) hr.le
  rw [processQueueRun_eq s t1 h1, processQueueRun_eq _ t2 h2,
    processQueueRun_eq s t2 h3]
  have hprod : (t2 - (s.last_processed_time +
      ((⌊(t1 - s.last_processed_time) * s.outflow_rate⌋ : ℤ) : ℚ) /
        s.outflow_rate)) * s.outflow_rate =
      (t2 - s.last_processed_time) * s.outflow_rate -
        ((⌊(t1 - s.last_processed_time) * s.outflow_rate⌋ : ℤ) : ℚ) := by
    field_simp
    ring
  have hfl2 : ⌊(t2 - (s.last_processed_time +
      ((⌊(t1 - s.last_processed_time) * s.outflow_rate⌋ : ℤ) : ℚ) /
        s.outflow_rate)) * s.outflow_rate⌋ =
      ⌊(t2 - s.last_processed_time) * s.outflow_rate⌋ -
        ⌊(t1 - s.last_processed_time) * s.outflow_rate⌋ := by
    rw [hprod, Int.floor_sub_int]
  simp only [LeakingBucket.mk.injEq, hfl2, true_and]
  constructor
  · rw [List.drop_drop]
    congr 1
    omega
  · push_cast
    field_simp

/-- C3 counterexample: a bucket with `outflow_rate = 1` holding one queued
item, drained 3 seconds later: the computed drain count is 3, only 1 item
is actually drained (the queue empties), yet `last_processed_time` advances
from 0 to 3 — three drain intervals — not by the single interval
`0 + 1 * (1 / 1) = 1` that "whole multiples of `1/outflow_rate`
corresponding to items actually drained" would give. -/
theorem C3_counterexample_advance_not_by_items_drained :
    LeakingBucket.process_queue ⟨5, 1, [0], 0⟩ 3 = some ⟨5, 1, [], 3⟩ ∧
      ((0 : ℚ) + 1 * (1 / 1)) ≠ (3 : ℚ) := by
  constructor
  · rw [LeakingBucket.process_queue, if_neg (by norm_num),
      processQueueRun_eq _ _ (by norm_num)]
    norm_num
  · norm_num

/-- C3 amended: every `_process_queue` step computes
`n = ⌊elapsed * outflow_rate⌋`, pops up to `n` items (fewer if the queue
empties first), and advances `last_processed_time` by `n / outflow_rate` —
`n` drain intervals for the *computed* count `n`, even when fewer than `n`
items were actually popped because the queue emptied; fractional drain time
is carried forward.  After every `add_request` call the queue length never
exceeds capacity. -/
theorem C3_amended_drain_accounting (s : LeakingBucket) (now : ℚ)
    (hr : 0 < s.outflow_rate) (hnow : s.last_processed_time ≤ now) :
    (processQueueRun s now).queue =
        s.queue.drop (⌊(now - s.last_processed_time) * s.outflow_rate⌋).toNat ∧
      (processQueueRun s now).queue.length =
        s.queue.length -
          min (⌊(now - s.last_processed_time) * s.outflow_rate⌋).toNat
            s.queue.length ∧
      (processQueueRun s now).last_processed_time =
        s.last_processed_time +
          ((⌊(now - s.last_processed_time) * s.outflow_rate⌋ : ℤ) : ℚ) /
            s.outflow_rate ∧
      (∀ (b : Bool) (s' : LeakingBucket), s.add_request now = some (b, s') →
        (s.queue.length : ℤ) ≤ s.bucket_size →
          (s'.queue.length : ℤ) ≤ s.bucket_size) := by
  have h : 0 ≤ (now - s.last_processed_time) * s.outflow_rate :=
    mul_nonneg (by linarith) hr.le
  refine ⟨?_, ?_, ?_, ?_⟩
  · rw [processQueueRun_eq s now h]
  · rw [processQueueRun_eq s now h]
    simp only [List.length_drop]
    omega
  · rw [processQueueRun_eq s now h]
  · intro b s' hadd hcap
    rw [LeakingBucket.add_request, LeakingBucket.process_queue, if_neg hr.ne',
      processQueueRun_eq s now h] at hadd
    simp only [Option.map_some', Option.some.injEq] at hadd
    split at hadd
    case isTrue hlt =>
      obtain ⟨-, rfl⟩ := Prod.mk.injEq .. ▸ hadd
      simp only [List.length_append, List.length_drop, List.length_singleton]
      simp only [List.length_drop] at hlt
      omega
    case isFalse hge =>
      obtain ⟨-, rfl⟩ := Prod.mk.injEq .. ▸ hadd
      simp only [List.length_drop]
      omega

/-- C3 amended witness: the amended theorem applied to a concrete bucket of
capacity 3, outflow rate 2, two queued items, drained at clock reading 1. -/
theorem C3_amended_drain_accounting_witness :
    (processQueueRun ⟨3, 2, [0, 0], 0⟩ 1).queue =
        ([0, 0] : List ℚ).drop (⌊((1 : ℚ) - 0) * 2⌋).toNat ∧
      (processQueueRun ⟨3, 2, [0, 0], 0⟩ 1).queue.length =
        ([0, 0] : List ℚ).length -
          min (⌊((1 : ℚ) - 0) * 2⌋).toNat ([0, 0] : List ℚ).length ∧
      (processQueueRun ⟨3, 2, [0, 0], 0⟩ 1).last_processed_time =
        0 + ((⌊((1 : ℚ) - 0) * 2⌋ : ℤ) : ℚ) / 2 ∧
      (∀ (b : Bool) (s' : LeakingBucket),
        (⟨3, 2, [0, 0], 0⟩ : LeakingBucket).add_request 1 = some (b, s') →
        (([0, 0] : List ℚ).length : ℤ) ≤ 3 → ((s'.queue.length : ℤ) ≤ 3)) :=
  C3_amended_drain_accounting ⟨3, 2, [0, 0], 0⟩ 1 (by norm_num) (by norm_num)

/-- C8: for every bucket with `outflow_rate > 0` and every elapsed duration
`t ≥ 0`, draining after two successive half advances (`now + t/2`, then
`now + t`) leaves the same queue — hence drains exactly as many items in
total — as draining once after the full advance (`now + t`): fractional
leftover drain time is never lost across calls. -/
theorem C8_half_advances_drain_same (s : LeakingBucket) (now t : ℚ)
    (hr : 0 < s.outflow_rate) (hnow : s.last_processed_time ≤ now) (ht : 0 ≤ t) :
    (processQueueRun (processQueueRun s (now + t / 2)) (now + t)).queue =
        (processQueueRun s (now + t)).queue ∧
      s.queue.length -
          (processQueueRun (processQueueRun s (now + t / 2)) (now + t)).queue.length =
        s.queue.length - (processQueueRun s (now + t)).queue.length := by
  have h := processQueueRun_comp s (now + t / 2) (now + t) hr (by linarith)
    (by linarith)
  rw [h]
  exact ⟨rfl, rfl⟩

/-- C8 witness: the half-advance theorem applied to a concrete bucket of
capacity 3, outflow rate 1, three queued items, with `now = 0` and `t = 3`. -/
theorem C8_half_advances_drain_same_witness :
    (processQueueRun (processQueueRun ⟨3, 1, [0, 0, 0], 0⟩ (0 + 3 / 2))
          (0 + 3)).queue =
        (processQueueRun ⟨3, 1, [0, 0, 0], 0⟩ (0 + 3)).queue ∧
      ([0, 0, 0] : List ℚ).length -
          (processQueueRun (processQueueRun ⟨3, 1, [0, 0, 0], 0⟩ (0 + 3 / 2))
              (0 + 3)).queue.length =
        ([0, 0, 0] : List ℚ).length -
          (processQueueRun ⟨3, 1, [0, 0, 0], 0⟩ (0 + 3)).queue.length :=
  C8_half_advances_drain_same ⟨3, 1, [0, 0, 0], 0⟩ 0 3 (by norm_num)
    (by norm_num) (by norm_num)

/-- C9: a rejected decision leaves the admission state unchanged apart from
time bookkeeping: a rejected `FixedWindowCounter.allow_request` leaves
`request_count` unchanged (only a window rollover resets it to 0); a
rejected `TokenBucket.allow_request` leaves `tokens` at their post-refill
value (no consumption); a rejected `LeakingBucket.add_request` leaves the
queue exactly as the drain step left it (nothing pushed). -/
theorem C9_rejection_frame :
    (∀ (s : FixedWindowCounter) (now : ℚ) (s' : FixedWindowCounter),
      s.allow_request now = some (false, s') →
      s'.request_count =
        (if getCurrentWindow s.window_size now ≠ s.current_window_start
          then 0 else s.request_count)) ∧
    (∀ (s : TokenBucket) (now cost : ℚ) (s' : TokenBucket),
      s.allow_request now cost = (false, s') →
      s'.tokens = (s.refill now).tokens) ∧
    (∀ (s : LeakingBucket) (now : ℚ) (s' : LeakingBucket),
      s.add_request now = some (false, s') →
      ∃ s1, s.process_queue now = some s1 ∧ s'.queue = s1.queue) := by
  refine ⟨?_, ?_, ?_⟩
  · intro s now s' h
    rw [FixedWindowCounter.allow_request] at h
    split at h
    · exact absurd h (by simp)
    · by_cases hroll : getCurrentWindow s.window_size now ≠ s.current_window_start
      · rw [if_pos hroll]
        simp only [allowRun, ne_eq, hroll, not_false_eq_true, ite_true,
          Option.some.injEq] at h
        split at h
        · exact absurd h (by simp)
        · obtain ⟨-, rfl⟩ := Prod.mk.injEq .. ▸ h
          rfl
      · rw [if_neg hroll]
        have heq : getCurrentWindow s.window_size now = s.current_window_start :=
          not_ne_iff.mp hroll
        simp only [allowRun, heq, ne_eq, not_true_eq_false, ite_false,
          Option.some.injEq] at h
        split at h
        · exact absurd h (by simp)
        · obtain ⟨-, rfl⟩ := Prod.mk.injEq .. ▸ h
          rfl
  · intro s now cost s' h
    simp only [TokenBucket.allow_request] at h
    split at h
    · exact absurd h (by simp)
    · obtain ⟨-, rfl⟩ := Prod.mk.injEq .. ▸ h
      rfl
  · intro s now s' h
    rw [LeakingBucket.add_request] at h
    cases hq : s.process_queue now with
    | none => rw [hq] at h; exact absurd h (by simp)
    | some s1 =>
      rw [hq] at h
      simp only [Option.map_some', Option.some.injEq] at h
      refine ⟨s1, rfl, ?_⟩
      split at h
      · exact absurd h (by simp)
      · obtain ⟨-, rfl⟩ := Prod.mk.injEq .. ▸ h
        rfl

/-- C9 witness: the frame theorem applied to three concrete rejected calls:
a `FixedWindowCounter` with threshold 0 at instant 0, a full-capacity
`TokenBucket` asked for cost 6 at instant 0, and a `LeakingBucket` of
capacity 0 at instant 0. -/
theorem C9_rejection_frame_witness :
    ((⟨1, 0, 0, 0⟩ : FixedWindowCounter).request_count =
      if getCurrentWindow (⟨1, 0, 0, 0⟩ : FixedWindowCounter).window_size 0 ≠
          (⟨1, 0, 0, 0⟩ : FixedWindowCounter).current_window_start then 0
        else (⟨1, 0, 0, 0⟩ : FixedWindowCounter).request_count) ∧
    ((⟨5, 1, 5, 0⟩ : TokenBucket).tokens =
      ((TokenBucket.init 5 1 0).refill 0).tokens) ∧
    (∃ s1, (LeakingBucket.init 0 1 0).process_queue 0 = some s1 ∧
      (⟨0, 1, [], 0⟩ : LeakingBucket).queue = s1.queue) :=
  ⟨C9_rejection_frame.1 ⟨1, 0, 0, 0⟩ 0 ⟨1, 0, 0, 0⟩
    (by simp [FixedWindowCounter.allow_request, allowRun, getCurrentWindow]),
   C9_rejection_frame.2.1 (TokenBucket.init 5 1 0) 0 6 ⟨5, 1, 5, 0⟩
    (by norm_num [TokenBucket.init, TokenBucket.allow_request,
      TokenBucket.refill]),
   C9_rejection_frame.2.2 (LeakingBucket.init 0 1 0) 0 ⟨0, 1, [], 0⟩
    (by norm_num [LeakingBucket.init, LeakingBucket.add_request,
      LeakingBucket.process_queue, processQueueRun, pyInt])⟩

/-- C6 counterexample: the claim says a negative cost fails with an
`InvalidArgument` condition; in the code `allow_request(-2)` on a fresh
bucket of capacity 5 is processed silently: it returns `True` and *adds*
2 tokens, leaving 7 tokens — above capacity. -/
theorem C6_counterexample_negative_cost_processed :
    ((TokenBucket.init 5 1 0).allow_request 0 (-2)).1 = true ∧
      ((TokenBucket.init 5 1 0).allow_request 0 (-2)).2.tokens = 7 := by
  norm_num [TokenBucket.init, TokenBucket.allow_request, TokenBucket.refill]

/-- C6 amended: `allow_request` performs no validation of its cost argument.
With a negative cost the call is admitted (whenever the post-refill level is
non-negative, e.g. from any state with `tokens ≥ 0` and `bucket_size ≥ 0`)
and the token level *increases* by `-cost`, possibly beyond capacity; with
cost 0 the call is trivially admitted and consumes nothing beyond the
time-bookkeeping refill. -/
theorem C6_amended_no_cost_validation (s : TokenBucket) (now cost : ℚ)
    (hr : 0 ≤ s.refill_rate) (h0 : 0 ≤ s.tokens) (hcap : 0 ≤ s.bucket_size)
    (hnow : s.last_refill_time ≤ now) :
    (cost < 0 →
      (s.allow_request now cost).1 = true ∧
        (s.allow_request now cost).2.tokens = (s.refill now).tokens - cost ∧
        (s.refill now).tokens < (s.allow_request now cost).2.tokens) ∧
    (cost = 0 →
      (s.allow_request now cost).1 = true ∧
        (s.allow_request now cost).2.tokens = (s.refill now).tokens) := by
  have helapsed : 0 ≤ (now - s.last_refill_time) * s.refill_rate :=
    mul_nonneg (by linarith) hr
  have href0 : 0 ≤ (s.refill now).tokens := by
    simp only [TokenBucket.refill, le_min_iff]
    constructor <;> linarith
  constructor
  · intro hneg
    have hadm : (s.refill now).tokens ≥ cost := by linarith
    refine ⟨?_, ?_, ?_⟩
    · simp only [TokenBucket.allow_request, hadm, if_pos]
    · simp only [TokenBucket.allow_request, hadm, if_pos]
    · simp only [TokenBucket.allow_request, hadm, if_pos]
      linarith
  · intro hzero
    subst hzero
    have hadm : (s.refill now).tokens ≥ 0 := href0
    constructor
    · simp only [TokenBucket.allow_request, hadm, if_pos]
    · simp only [TokenBucket.allow_request, hadm, if_pos]
      ring

/-- C6 amended witness: the amended theorem applied to a fresh bucket of
capacity 5, refill rate 1, at the frozen instant 0, with costs −2 and 0. -/
theorem C6_amended_no_cost_validation_witness :
    (((TokenBucket.init 5 1 0).allow_request 0 (-2)).1 = true ∧
      ((TokenBucket.init 5 1 0).allow_request 0 (-2)).2.tokens =
        ((TokenBucket.init 5 1 0).refill 0).tokens - (-2) ∧
      ((TokenBucket.init 5 1 0).refill 0).tokens <
        ((TokenBucket.init 5 1 0).allow_request 0 (-2)).2.tokens) ∧
    (((TokenBucket.init 5 1 0).allow_request 0 0).1 = true ∧
      ((TokenBucket.init 5 1 0).allow_request 0 0).2.tokens =
        ((TokenBucket.init 5 1 0).refill 0).tokens) :=
  ⟨(C6_amended_no_cost_validation (TokenBucket.init 5 1 0) 0 (-2)
      (by norm_num [TokenBucket.init]) (by norm_num [TokenBucket.init])
      (by norm_num [TokenBucket.init]) (by norm_num [TokenBucket.init])).1
    (by norm_num),
   (C6_amended_no_cost_validation (TokenBucket.init 5 1 0) 0 0
      (by norm_num [TokenBucket.init]) (by norm_num [TokenBucket.init])
      (by norm_num [TokenBucket.init]) (by norm_num [TokenBucket.init])).2
    rfl⟩

/-- C5 counterexample: the claim says negative construction parameters fail
with a `ConfigurationError`; in the code no constructor validates anything:
`FixedWindowCounter(-1, -2)` constructs successfully (no exception), and so
do `TokenBucket(-1, -1)` and `LeakingBucket(-1, -1)`, storing the negative
parameters as-is. -/
theorem C5_counterexample_negative_params_accepted :
    (FixedWindowCounter.init (-1) (-2) 0).isSome = true ∧
      (TokenBucket.init (-1) (-1) 0).bucket_size = -1 ∧
      (LeakingBucket.init (-1) (-1) 0).bucket_size = -1 := by
  refine ⟨?_, rfl, rfl⟩
  norm_num [FixedWindowCounter.init]

/-- C5 amended: construction performs no validation.  For every
`window_size ≠ 0` (negative included) `FixedWindowCounter` constructs and
stores its parameters unchecked; `TokenBucket` and `LeakingBucket` always
construct and store their parameters unchecked (negative included), so in
particular the zero values allowed by §4 construct successfully; the only
construction-time failure is `window_size = 0`, which raises a
`ZeroDivisionError` (not a `ConfigurationError`). -/
theorem C5_amended_no_construction_validation
    (wsize : ℚ) (thr : ℤ) (cap rate : ℚ) (lcap : ℤ) (lrate now : ℚ)
    (hws : wsize ≠ 0) :
    (∃ s : FixedWindowCounter, FixedWindowCounter.init wsize thr now = some s ∧
        s.window_size = wsize ∧ s.request_threshold = thr) ∧
    ((TokenBucket.init cap rate now).bucket_size = cap ∧
      (TokenBucket.init cap rate now).refill_rate = rate) ∧
    ((LeakingBucket.init lcap lrate now).bucket_size = lcap ∧
      (LeakingBucket.init lcap lrate now).outflow_rate = lrate) ∧
    FixedWindowCounter.init 0 thr now = none := by
  refine ⟨⟨⟨wsize, thr, getCurrentWindow wsize now, 0⟩, ?_, rfl, rfl⟩,
    ⟨rfl, rfl⟩, ⟨rfl, rfl⟩, ?_⟩
  · rw [FixedWindowCounter.init, if_neg hws]
  · rw [FixedWindowCounter.init, if_pos rfl]

/-- C5 amended witness: the amended theorem applied to negative parameters
`window_size = -1`, `threshold = -2`, capacities and rates `-1`, at
instant 0. -/
theorem C5_amended_no_construction_validation_witness :
    (∃ s : FixedWindowCounter, FixedWindowCounter.init (-1) (-2) 0 = some s ∧
        s.window_size = -1 ∧ s.request_threshold = -2) ∧
    ((TokenBucket.init (-1) (-1) 0).bucket_size = -1 ∧
      (TokenBucket.init (-1) (-1) 0).refill_rate = -1) ∧
    ((LeakingBucket.init (-1) (-1) 0).bucket_size = -1 ∧
      (LeakingBucket.init (-1) (-1) 0).outflow_rate = -1) ∧
    FixedWindowCounter.init 0 (-2) 0 = none :=
  C5_amended_no_construction_validation (-1) (-2) (-1) (-1) (-1) (-1) 0
    (by norm_num)

/-- C4: the claim says `outflow_rate = 0` is a valid degenerate
configuration whose `add_request` calls complete without raising.  In the
code, every `add_request` with `outflow_rate = 0` reaches
`self.last_processed_time += request_to_process / self.outflow_rate`, a
division by zero that raises `ZeroDivisionError` (modelled by `none`):
the call never completes. -/
theorem C4_outflow_zero_raises :
    (LeakingBucket.init 1 0 0).add_request 0 = none ∧
      (LeakingBucket.init 1 0 0).process_queue 0 = none := by
  constructor <;> rfl

/-- C7: a `TokenBucket` of capacity 5 and refill rate 1 with the clock frozen
at `t = 0` admits five consecutive cost-1 calls leaving token levels
4, 3, 2, 1, 0, rejects a sixth call at the same instant, and after the clock
advances by exactly 2.0 seconds admits a seventh call leaving 1 token
(refilled to 2, consumed to 1). -/
theorem C7_token_bucket_scenario :
    (((TokenBucket.init 5 1 0).runCalls []).allow_request 0 1).1 = true ∧
    ((TokenBucket.init 5 1 0).runCalls [(0, 1)]).tokens = 4 ∧
    (((TokenBucket.init 5 1 0).runCalls [(0, 1)]).allow_request 0 1).1 = true ∧
    ((TokenBucket.init 5 1 0).runCalls [(0, 1), (0, 1)]).tokens = 3 ∧
    (((TokenBucket.init 5 1 0).runCalls [(0, 1), (0, 1)]).allow_request
      0 1).1 = true ∧
    ((TokenBucket.init 5 1 0).runCalls [(0, 1), (0, 1), (0, 1)]).tokens = 2 ∧
    (((TokenBucket.init 5 1 0).runCalls [(0, 1), (0, 1), (0, 1)]).allow_request
      0 1).1 = true ∧
    ((TokenBucket.init 5 1 0).runCalls
      [(0, 1), (0, 1), (0, 1), (0, 1)]).tokens = 1 ∧
    (((TokenBucket.init 5 1 0).runCalls
      [(0, 1), (0, 1), (0, 1), (0, 1)]).allow_request 0 1).1 = true ∧
    ((TokenBucket.init 5 1 0).runCalls
      [(0, 1), (0, 1), (0, 1), (0, 1), (0, 1)]).tokens = 0 ∧
    (((TokenBucket.init 5 1 0).runCalls
      [(0, 1), (0, 1), (0, 1), (0, 1), (0, 1)]).allow_request 0 1).1 = false ∧
    ((TokenBucket.init 5 1 0).runCalls
      [(0, 1), (0, 1), (0, 1), (0, 1), (0, 1), (0, 1)]).tokens = 0 ∧
    (((TokenBucket.init 5 1 0).runCalls
      [(0, 1), (0, 1), (0, 1), (0, 1), (0, 1), (0, 1)]).refill 2).tokens = 2 ∧
    (((TokenBucket.init 5 1 0).runCalls
      [(0, 1), (0, 1), (0, 1), (0, 1), (0, 1), (0, 1)]).allow_request
      2 1).1 = true ∧
    (((TokenBucket.init 5 1 0).runCalls
      [(0, 1), (0, 1), (0, 1), (0, 1), (0, 1), (0, 1)]).allow_request
      2 1).2.tokens = 1 := by
  norm_num [TokenBucket.init, TokenBucket.runCalls, TokenBucket.allow_request,
    TokenBucket.refill]

end RateLimiter
